import Mathlib

/-!
Verification development for the `req` command of the nak CLI
(`src/req.go`).  The Go code is embedded shallowly: the NIP-01 filter
struct becomes a Lean structure, the per-line filter-building code of
`req.Action` becomes pure functions, and the line-processing loop
becomes a recursion over the parsed stdin lines.  Parts of the program
that live outside `src/req.go` (the pagination helper, the
line-processing-error exit helper, the relay library's auth retry, and
the wire serializer) are modelled from the specification and say so in
their doc comments.
-/

namespace Nak

/-- The NIP-01 filter, mirroring the fields of `nostr.Filter` that
`src/req.go` touches.  Go zero values stand for unset: `limit = 0`,
`limitZero = false`, `tags = none` (a nil map).  The tag map is an
association list from single-character keys to ordered value lists,
mirroring Go map semantics (no duplicate keys arise from the code).
`until'` is the Go field `Until` (renamed because `until` is a Lean
keyword). -/
structure Filter where
  ids : List String := []
  authors : List String := []
  kinds : List Int := []
  tags : Option (List (String × List String)) := none
  since : Option Int := none
  until' : Option Int := none
  limit : Int := 0
  limitZero : Bool := false
  search : String := ""
deriving Repr, DecidableEq

/-- The command-line options of the `req` command that the `Action`
function reads.  `since`/`until'`/`limit` are `Option`s so that "flag
not set" (`c.IsSet` false) is distinguishable from any value.
`limit` is the `uint64` returned by `c.Uint` (always below `2 ^ 64`
in Go; the narrowing conversion site `int(limit)` of src/req.go line
257 reduces it modulo `2 ^ 64`, so larger Lean naturals behave as the
wrapped machine value would). -/
structure ReqOpts where
  author : List String := []
  id : List String := []
  kind : List Int := []
  tag : List String := []
  e : List String := []
  p : List String := []
  d : List String := []
  since : Option Int := none
  until' : Option Int := none
  limit : Option Nat := none
  search : String := ""
  stream : Bool := false
  paginate : Bool := false
  bare : Bool := false
  auth : Bool := false
  forcePreAuth : Bool := false
deriving Repr, DecidableEq

/-- Helper for `splitEq`: accumulates the characters of the current
segment (reversed) while scanning. -/
def splitEqAux : List Char → List Char → List (List Char)
  | [], acc => [acc.reverse]
  | c :: rest, acc =>
    if c = '=' then acc.reverse :: splitEqAux rest [] else splitEqAux rest (c :: acc)

/-- Mirrors Go `strings.Split(tagFlag, "=")` (src/req.go line 218). -/
def splitEq (s : String) : List String :=
  (splitEqAux s.toList []).map (fun cs => String.mk cs)

/-- Mirrors the validity check of src/req.go line 219: the split must
have exactly two parts and the key must be one byte long
(`len(spl) == 2 && len(spl[0]) == 1`). -/
def parseTagFlag (s : String) : Option (String × String) :=
  match splitEq s with
  | [k, v] => if k.utf8ByteSize = 1 then some (k, v) else none
  | _ => none

/-- Mirrors the loop over `c.StringSlice("tag")` of src/req.go lines
217-224: each flag is split and validated; the first malformed flag
makes the whole `Action` return the `invalid --tag` error. -/
def parseTagFlags : List String → Except String (List (String × String))
  | [] => .ok []
  | s :: rest =>
    match parseTagFlag s with
    | some kv =>
      match parseTagFlags rest with
      | .ok kvs => .ok (kv :: kvs)
      | .error msg => .error msg
    | none => .error ("invalid --tag " ++ s)

/-- Mirrors the Go map update pattern of src/req.go lines 239-244:
if the key is absent insert it with an empty list, then append the
value.  On the association list this appends to the first entry with
that key, or appends a new entry at the end. -/
def mergeTag : List (String × List String) → String × String → List (String × List String)
  | [], kv => [(kv.1, [kv.2])]
  | q :: m, kv =>
    if q.1 = kv.1 then (q.1, q.2 ++ [kv.2]) :: m else q :: mergeTag m kv

/-- The value list stored under key `k`, with the Go convention that a
missing key (or a nil map) reads as the empty list. -/
def tagMapValues (m : List (String × List String)) (k : String) : List String :=
  match m.find? (fun p => p.1 = k) with
  | none => []
  | some p => p.2

/-- The value list stored under key `k` in a filter's tag map (nil map
reads as empty, as in Go). -/
def filterTagValues (f : Filter) (k : String) : List String :=
  match f.tags with
  | none => []
  | some m => tagMapValues m k

/-- Mirrors src/req.go lines 204-215: authors, ids and kinds append to
the base filter (the Go code skips the append when the flag list is
empty, which leaves the field unchanged); a non-empty search flag
replaces the base search. -/
def applyListOverrides (f : Filter) (opts : ReqOpts) : Filter :=
  { f with
    authors := if opts.author.isEmpty then f.authors else f.authors ++ opts.author,
    ids := if opts.id.isEmpty then f.ids else f.ids ++ opts.id,
    kinds := f.kinds ++ opts.kind,
    search := if opts.search = "" then f.search else opts.search }

/-- Mirrors src/req.go lines 235-244: when the collected tag pair list
is non-empty, a nil tag map is first replaced by an empty one, and then
every pair is merged in order. -/
def applyTags (f : Filter) (ts : List (String × String)) : Filter :=
  match f.tags, ts with
  | _, [] => f
  | none, ts => { f with tags := some (ts.foldl mergeTag []) }
  | some m, ts => { f with tags := some (ts.foldl mergeTag m) }

/-- Mirrors src/req.go lines 246-249: a set `since` flag replaces the
base value outright. -/
def applySince (f : Filter) (opts : ReqOpts) : Filter :=
  match opts.since with
  | some t => { f with since := some t }
  | none => f

/-- Mirrors src/req.go lines 251-254: a set `until` flag replaces the
base value outright. -/
def applyUntil (f : Filter) (opts : ReqOpts) : Filter :=
  match opts.until' with
  | some t => { f with until' := some t }
  | none => f

/-- Go's narrowing conversion `int(u)` of a `uint64` on a 64-bit
platform (src/req.go line 257): the value is reduced modulo `2 ^ 64`
and reinterpreted in two's complement, so values of `2 ^ 63` and above
come out negative. -/
def intOfUint64 (u : Nat) : Int :=
  if u % 2 ^ 64 < 2 ^ 63 then ((u % 2 ^ 64 : Nat) : Int)
  else ((u % 2 ^ 64 : Nat) : Int) - 2 ^ 64

/-- Mirrors src/req.go lines 256-260: a non-zero limit flag is written
through the narrowing conversion `int(limit)` (`intOfUint64`); an
explicitly set zero limit only sets `limitZero`; an unset flag changes
nothing. -/
def applyLimit (f : Filter) (opts : ReqOpts) : Filter :=
  match opts.limit with
  | some l => if l ≠ 0 then { f with limit := intOfUint64 l } else { f with limitZero := true }
  | none => f

/-- The encounter-ordered list of tag pairs of src/req.go lines
216-233: the parsed generic `--tag` flags in flag order, then the `e`,
then the `p`, then the `d` shortcut values. -/
def tagPairs (generic : List (String × String)) (opts : ReqOpts) : List (String × String) :=
  generic ++ opts.e.map (fun v => ("e", v)) ++ opts.p.map (fun v => ("p", v))
    ++ opts.d.map (fun v => ("d", v))

/-- The per-line filter construction of `req.Action` (src/req.go lines
204-260): list overrides, tag collection and merge, then the
`since`/`until`/`limit` overrides.  A malformed `--tag` flag yields the
`invalid --tag` error. -/
def buildFilter (base : Filter) (opts : ReqOpts) : Except String Filter :=
  match parseTagFlags opts.tag with
  | .error msg => .error msg
  | .ok generic =>
    let f := applyListOverrides base opts
    let f := applyTags f (tagPairs generic opts)
    let f := applySince f opts
    let f := applyUntil f opts
    let f := applyLimit f opts
    .ok f

/-- One line of piped standard input, after the `easyjson.Unmarshal`
of src/req.go lines 197-201 has been attempted: blank (default
filter), a successfully parsed base filter, or a parse failure. -/
inductive StdinLine where
  | blank
  | parsed (base : Filter)
  | invalid (raw : String)
deriving Repr, DecidableEq

/-- `true` for the lines that get past JSON parsing and reach the
filter-building code. -/
def StdinLine.parseOk : StdinLine → Bool
  | .invalid _ => false
  | _ => true

/-- The result of the stdin loop of src/req.go lines 195-285:
the filters built from the lines that completed, the number of
line-processing errors recorded via `lineProcessingError`, and the
error of an early `return` (a malformed `--tag`), if any. -/
structure LineRun where
  filters : List Filter
  lineErrors : Nat
  fatal : Option String
deriving Repr, DecidableEq

/-- The stdin loop of src/req.go lines 195-285, restricted to filter
building: an unparseable line records a line-processing error and
`continue`s; a blank line starts from the empty filter; a parsed line
starts from its base filter; a filter-building error is `return`ed,
ending the loop at once. -/
def processLines (opts : ReqOpts) : List StdinLine → LineRun
  | [] => ⟨[], 0, none⟩
  | .invalid _ :: rest =>
    let r := processLines opts rest
    ⟨r.filters, r.lineErrors + 1, r.fatal⟩
  | .blank :: rest =>
    match buildFilter {} opts with
    | .error msg => ⟨[], 0, some msg⟩
    | .ok f =>
      let r := processLines opts rest
      ⟨f :: r.filters, r.lineErrors, r.fatal⟩
  | .parsed base :: rest =>
    match buildFilter base opts with
    | .error msg => ⟨[], 0, some msg⟩
    | .ok f =>
      let r := processLines opts rest
      ⟨f :: r.filters, r.lineErrors, r.fatal⟩

/-- Modelled from the spec: `exitIfLineProcessingError` (called at
src/req.go line 287, body not under src/) makes the invocation report
failure at exit when any line-processing error was recorded; an early
`return` of an error from `Action` also reports failure. -/
def reportsFailure (r : LineRun) : Bool :=
  r.fatal.isSome || decide (0 < r.lineErrors)

/-- A JSON value, as far as the filter wire format needs. -/
inductive Json where
  | str (s : String)
  | num (n : Int)
  | arr (xs : List Json)
  | obj (fields : List (String × Json))
deriving Repr

/-- Modelled from the spec: the NIP-01 filter wire format of section 6
(the serializer is `Filter.String`/`easyjson` in the external nostr
library, not under src/): a JSON object with `ids`, `authors`,
`kinds`, a map of `#<tagkey>` to string lists, `since`, `until`,
`limit` and `search`, optional or empty fields omitted. -/
def filterJson (f : Filter) : Json :=
  Json.obj
    ((if f.ids.isEmpty then [] else [("ids", Json.arr (f.ids.map Json.str))]) ++
     (if f.authors.isEmpty then [] else [("authors", Json.arr (f.authors.map Json.str))]) ++
     (if f.kinds.isEmpty then [] else [("kinds", Json.arr (f.kinds.map Json.num))]) ++
     (match f.tags with
      | none => []
      | some m => m.map (fun p => ("#" ++ p.1, Json.arr (p.2.map Json.str)))) ++
     (match f.since with
      | none => []
      | some t => [("since", Json.num t)]) ++
     (match f.until' with
      | none => []
      | some t => [("until", Json.num t)]) ++
     (if f.limit = 0 ∧ f.limitZero = false then [] else [("limit", Json.num f.limit)]) ++
     (if f.search = "" then [] else [("search", Json.str f.search)]))

/-- Mirrors src/req.go lines 273-284: with no relays the filter is
printed, bare when the `bare` flag is set, otherwise enveloped as
`["REQ", "nak", filter]` (`nostr.ReqEnvelope` with subscription id
`"nak"`). -/
def printOutput (opts : ReqOpts) (f : Filter) : Json :=
  if opts.bare then filterJson f
  else Json.arr [Json.str "REQ", Json.str "nak", filterJson f]

/-- The three delivery strategies of the subscription engine. -/
inductive Strategy where
  | eose
  | stream
  | paginate
deriving Repr, DecidableEq

/-- Mirrors src/req.go lines 262-268: `SubManyEose` by default,
replaced by the pagination helper when `--paginate` is set, else by
`SubMany` when `--stream` is set. -/
def selectStrategy (opts : ReqOpts) : Strategy :=
  if opts.paginate then Strategy.paginate
  else if opts.stream then Strategy.stream
  else Strategy.eose

/-- The observable outcome of one `req.Action` invocation. -/
structure RunOutcome where
  exitCode : Option Nat := none
  connectionAttempted : Bool := false
  strategy : Option Strategy := none
  outputs : List Json := []
  sentFilters : List Filter := []
  lineErrors : Nat := 0
  fatal : Option String := none
deriving Repr

/-- The control flow of `req.Action` (src/req.go lines 147-289):
with relay addresses given, a connection attempt is made and zero
connected relays exits with code 3 before any line is read; otherwise
the stdin loop runs, sending each built filter (relay mode) or
printing it (no-relay mode).  `connected` is the result of the
external `connectToAllRelays`. -/
def runReq (opts : ReqOpts) (requested connected : List String)
    (lines : List StdinLine) : RunOutcome :=
  if requested.isEmpty then
    let r := processLines opts lines
    { connectionAttempted := false,
      outputs := r.filters.map (printOutput opts),
      lineErrors := r.lineErrors, fatal := r.fatal }
  else if connected.isEmpty then
    { exitCode := some 3, connectionAttempted := true }
  else
    let r := processLines opts lines
    { connectionAttempted := true, strategy := some (selectStrategy opts),
      sentFilters := r.filters,
      lineErrors := r.lineErrors, fatal := r.fatal }

/-- The outcome of `gatherSecretKeyOrBunkerFromArguments` (external to
src/req.go): a local secret key, a bunker session, or an error. -/
inductive SignerOutcome where
  | localKey (sec : String)
  | bunker
  | gatherError (msg : String)
deriving Repr, DecidableEq

/-- What the auth handler of src/req.go lines 153-178 does with a
challenge. -/
inductive AuthAction where
  | refusedNoOptIn
  | refusedGatherError (msg : String)
  | signedLocal (sec : String)
  | signedBunker
deriving Repr, DecidableEq

/-- The auth handler closure of src/req.go lines 153-178: with neither
`--auth` nor `--force-pre-auth` set it returns the `auth not
authorized` error before gathering any key; otherwise it signs with
the gathered capability (or propagates the gathering error). -/
def authHandler (opts : ReqOpts) (gathered : SignerOutcome) : AuthAction :=
  if opts.auth = false ∧ opts.forcePreAuth = false then AuthAction.refusedNoOptIn
  else
    match gathered with
    | .gatherError msg => AuthAction.refusedGatherError msg
    | .localKey sec => AuthAction.signedLocal sec
    | .bunker => AuthAction.signedBunker

/-- Modelled from the spec: the relay library (external to src/)
retries the triggering request exactly once after a successful auth;
when the handler returns an error the request is not retried. -/
def requestRetries : AuthAction → Nat
  | .refusedNoOptIn => 0
  | .refusedGatherError _ => 0
  | .signedLocal _ => 1
  | .signedBunker => 1

/-- Modelled from the spec: a refused auth makes the triggering
request fail permanently. -/
def requestFailsPermanently : AuthAction → Bool
  | .refusedNoOptIn => true
  | .refusedGatherError _ => true
  | .signedLocal _ => false
  | .signedBunker => false

/-- Modelled from the spec (section 4.5): the next round's upper bound
is `min(minTimestamp - 1, previousUntil - 1)`; an unbounded previous
`until` contributes no bound. -/
def nextUntil : Option Int → Int → Int
  | none, m => m - 1
  | some u, m => min (m - 1) (u - 1)

/-- Minimum creation-timestamp of a round, given one event timestamp
and the rest. -/
def roundMin (t : Int) (ts : List Int) : Int :=
  ts.foldl min t

/-- Whether an optional limit has been reached by the running total. -/
def hitsLimit (total : Nat) : Option Nat → Bool
  | none => false
  | some l => decide (l ≤ total)

/-- Modelled from the spec (section 4.5 stop condition (c)): stop when
the filter `since` is set and the next `until` falls below it. -/
def stopBelowSince (since : Option Int) (u : Int) : Bool :=
  match since with
  | some s => decide (u < s)
  | none => false

/-- Modelled from the spec: `paginateWithPoolAndParams` (called at
src/req.go line 265, body not under src/), abstracted to the sequence
of `until` values it uses.  Each entry of `rounds` is the list of
creation-timestamps returned by one Eose-style round; the function
returns the successive `until` bounds of the rounds after the first.
It stops when a round returns zero events, when the filter limit or
the global limit is reached, or when the next `until` falls below a
set `since`. -/
def paginateUntils (limit globalLimit : Option Nat) (since : Option Int) :
    Nat → Option Int → List (List Int) → List Int
  | _, _, [] => []
  | total, cur, round :: rest =>
    match round with
    | [] => []
    | t :: ts =>
      let total2 := total + (t :: ts).length
      if hitsLimit total2 limit || hitsLimit total2 globalLimit then []
      else
        let u := nextUntil cur (roundMin t ts)
        if stopBelowSince since u then []
        else u :: paginateUntils limit globalLimit since total2 (some u) rest

/-! ## Helper lemmas -/

lemma applyListOverrides_tags (f : Filter) (opts : ReqOpts) :
    (applyListOverrides f opts).tags = f.tags := rfl

lemma applyListOverrides_since (f : Filter) (opts : ReqOpts) :
    (applyListOverrides f opts).since = f.since := rfl

lemma applyListOverrides_until (f : Filter) (opts : ReqOpts) :
    (applyListOverrides f opts).until' = f.until' := rfl

lemma applyListOverrides_limit (f : Filter) (opts : ReqOpts) :
    (applyListOverrides f opts).limit = f.limit := rfl

lemma applyListOverrides_limitZero (f : Filter) (opts : ReqOpts) :
    (applyListOverrides f opts).limitZero = f.limitZero := rfl

lemma applyTags_since (f : Filter) (ts : List (String × String)) :
    (applyTags f ts).since = f.since := by
  unfold applyTags; split <;> rfl

lemma applyTags_until (f : Filter) (ts : List (String × String)) :
    (applyTags f ts).until' = f.until' := by
  unfold applyTags; split <;> rfl

lemma applyTags_limit (f : Filter) (ts : List (String × String)) :
    (applyTags f ts).limit = f.limit := by
  unfold applyTags; split <;> rfl

lemma applyTags_limitZero (f : Filter) (ts : List (String × String)) :
    (applyTags f ts).limitZero = f.limitZero := by
  unfold applyTags; split <;> rfl

lemma applySince_until (f : Filter) (opts : ReqOpts) :
    (applySince f opts).until' = f.until' := by
  unfold applySince; split <;> rfl

lemma applySince_limit (f : Filter) (opts : ReqOpts) :
    (applySince f opts).limit = f.limit := by
  unfold applySince; split <;> rfl

lemma applySince_limitZero (f : Filter) (opts : ReqOpts) :
    (applySince f opts).limitZero = f.limitZero := by
  unfold applySince; split <;> rfl

lemma applySince_tags (f : Filter) (opts : ReqOpts) :
    (applySince f opts).tags = f.tags := by
  unfold applySince; split <;> rfl

lemma applyUntil_since (f : Filter) (opts : ReqOpts) :
    (applyUntil f opts).since = f.since := by
  unfold applyUntil; split <;> rfl

lemma applyUntil_limit (f : Filter) (opts : ReqOpts) :
    (applyUntil f opts).limit = f.limit := by
  unfold applyUntil; split <;> rfl

lemma applyUntil_limitZero (f : Filter) (opts : ReqOpts) :
    (applyUntil f opts).limitZero = f.limitZero := by
  unfold applyUntil; split <;> rfl

lemma applyUntil_tags (f : Filter) (opts : ReqOpts) :
    (applyUntil f opts).tags = f.tags := by
  unfold applyUntil; split <;> rfl

lemma applyLimit_since (f : Filter) (opts : ReqOpts) :
    (applyLimit f opts).since = f.since := by
  unfold applyLimit; split <;> (try split) <;> rfl

lemma applyLimit_until (f : Filter) (opts : ReqOpts) :
    (applyLimit f opts).until' = f.until' := by
  unfold applyLimit; split <;> (try split) <;> rfl

lemma applyLimit_tags (f : Filter) (opts : ReqOpts) :
    (applyLimit f opts).tags = f.tags := by
  unfold applyLimit; split <;> (try split) <;> rfl

lemma intOfUint64_of_lt (n : Nat) (h : n < 2 ^ 63) : intOfUint64 n = (n : Int) := by
  unfold intOfUint64
  have h64 : n < 2 ^ 64 := lt_trans h (by norm_num)
  rw [Nat.mod_eq_of_lt h64, if_pos h]

lemma applyLimit_pos (f : Filter) (opts : ReqOpts) (n : Nat) (hn : opts.limit = some n)
    (hne : n ≠ 0) : applyLimit f opts = { f with limit := intOfUint64 n } := by
  unfold applyLimit
  rw [hn]
  show (if n ≠ 0 then { f with limit := intOfUint64 n }
    else { f with limitZero := true }) = _
  rw [if_pos hne]

lemma applyLimit_zero (f : Filter) (opts : ReqOpts) (hn : opts.limit = some 0) :
    applyLimit f opts = { f with limitZero := true } := by
  unfold applyLimit
  rw [hn]
  rfl

lemma applyLimit_none (f : Filter) (opts : ReqOpts) (hn : opts.limit = none) :
    applyLimit f opts = f := by
  unfold applyLimit
  rw [hn]

lemma applySince_since_set (f : Filter) (opts : ReqOpts) (t : Int)
    (h : opts.since = some t) : (applySince f opts).since = some t := by
  unfold applySince; rw [h]

lemma applySince_since_unset (f : Filter) (opts : ReqOpts)
    (h : opts.since = none) : (applySince f opts).since = f.since := by
  unfold applySince; rw [h]

lemma applyUntil_until_set (f : Filter) (opts : ReqOpts) (t : Int)
    (h : opts.until' = some t) : (applyUntil f opts).until' = some t := by
  unfold applyUntil; rw [h]

lemma applyUntil_until_unset (f : Filter) (opts : ReqOpts)
    (h : opts.until' = none) : (applyUntil f opts).until' = f.until' := by
  unfold applyUntil; rw [h]

lemma buildFilter_ok_eq (base : Filter) (opts : ReqOpts) (g : List (String × String))
    (hp : parseTagFlags opts.tag = .ok g) :
    buildFilter base opts =
      .ok (applyLimit (applyUntil (applySince (applyTags (applyListOverrides base opts)
        (tagPairs g opts)) opts) opts) opts) := by
  unfold buildFilter
  rw [hp]

lemma buildFilter_error_eq (base : Filter) (opts : ReqOpts) (msg : String)
    (hp : parseTagFlags opts.tag = .error msg) :
    buildFilter base opts = .error msg := by
  unfold buildFilter
  rw [hp]

lemma buildFilter_ok_inv (base : Filter) (opts : ReqOpts) (f : Filter)
    (hok : buildFilter base opts = .ok f) :
    ∃ g, parseTagFlags opts.tag = .ok g ∧
      f = applyLimit (applyUntil (applySince (applyTags (applyListOverrides base opts)
        (tagPairs g opts)) opts) opts) opts := by
  cases hp : parseTagFlags opts.tag with
  | error msg =>
    rw [buildFilter_error_eq base opts msg hp] at hok
    cases hok
  | ok g =>
    rw [buildFilter_ok_eq base opts g hp] at hok
    injection hok with h
    exact ⟨g, rfl, h.symm⟩

/-- The values of the tag pairs whose key is `k`, in list order. -/
def valuesFor (k : String) (ts : List (String × String)) : List String :=
  (ts.filter (fun p => p.1 = k)).map (fun p => p.2)

lemma tagMapValues_nil (k : String) : tagMapValues [] k = [] := rfl

lemma tagMapValues_cons_self (k : String) (qv : List String)
    (m : List (String × List String)) : tagMapValues ((k, qv) :: m) k = qv := by
  simp [tagMapValues, List.find?]

lemma tagMapValues_cons_ne (qk k : String) (qv : List String)
    (m : List (String × List String)) (h : qk ≠ k) :
    tagMapValues ((qk, qv) :: m) k = tagMapValues m k := by
  simp [tagMapValues, List.find?, h]

lemma tagMapValues_mergeTag (m : List (String × List String)) (k v k' : String) :
    tagMapValues (mergeTag m (k, v)) k' =
      if k' = k then tagMapValues m k ++ [v] else tagMapValues m k' := by
  induction m with
  | nil =>
    by_cases h : k' = k
    · subst h
      rw [if_pos rfl]
      show tagMapValues [(k', [v])] k' = tagMapValues [] k' ++ [v]
      rw [tagMapValues_cons_self, tagMapValues_nil, List.nil_append]
    · rw [if_neg h]
      show tagMapValues [(k, [v])] k' = tagMapValues [] k'
      rw [tagMapValues_cons_ne k k' [v] [] (Ne.symm h)]
  | cons q m ih =>
    obtain ⟨qk, qv⟩ := q
    simp only [mergeTag]
    by_cases hqk : qk = k
    · subst hqk
      rw [if_pos rfl]
      by_cases h : k' = qk
      · subst h
        rw [if_pos rfl, tagMapValues_cons_self, tagMapValues_cons_self]
      · rw [if_neg h, tagMapValues_cons_ne qk k' (qv ++ [v]) m (Ne.symm h),
          tagMapValues_cons_ne qk k' qv m (Ne.symm h)]
    · rw [if_neg hqk]
      by_cases h : qk = k'
      · subst h
        have hne : ¬ qk = k := hqk
        rw [if_neg (fun hh => hqk hh), tagMapValues_cons_self, tagMapValues_cons_self]
      · rw [tagMapValues_cons_ne qk k' qv _ h, ih]
        by_cases h2 : k' = k
        · rw [if_pos h2, if_pos h2, tagMapValues_cons_ne qk k qv m hqk]
        · rw [if_neg h2, if_neg h2, tagMapValues_cons_ne qk k' qv m h]

lemma valuesFor_cons_self (k pv : String) (ts : List (String × String)) :
    valuesFor k ((k, pv) :: ts) = pv :: valuesFor k ts := by
  simp [valuesFor]

lemma valuesFor_cons_ne (k pk pv : String) (ts : List (String × String)) (h : pk ≠ k) :
    valuesFor k ((pk, pv) :: ts) = valuesFor k ts := by
  simp [valuesFor, h]

lemma tagMapValues_foldl (ts : List (String × String)) :
    ∀ (m : List (String × List String)) (k : String),
      tagMapValues (ts.foldl mergeTag m) k = tagMapValues m k ++ valuesFor k ts := by
  induction ts with
  | nil =>
    intro m k
    simp [valuesFor]
  | cons p ts ih =>
    intro m k
    obtain ⟨pk, pv⟩ := p
    simp only [List.foldl_cons]
    rw [ih, tagMapValues_mergeTag]
    by_cases h : k = pk
    · subst h
      rw [if_pos rfl, valuesFor_cons_self, List.append_assoc, List.singleton_append]
    · rw [if_neg h, valuesFor_cons_ne k pk pv ts (Ne.symm h)]

lemma filterTagValues_applyTags (f : Filter) (ts : List (String × String)) (k : String) :
    filterTagValues (applyTags f ts) k = filterTagValues f k ++ valuesFor k ts := by
  cases ts with
  | nil =>
    simp [applyTags, valuesFor]
  | cons p ts =>
    cases hf : f.tags with
    | none =>
      have h1 : applyTags f (p :: ts) = { f with tags := some ((p :: ts).foldl mergeTag []) } := by
        unfold applyTags
        rw [hf]
      rw [h1]
      show tagMapValues ((p :: ts).foldl mergeTag []) k = filterTagValues f k ++ valuesFor k (p :: ts)
      rw [tagMapValues_foldl, tagMapValues_nil, List.nil_append]
      unfold filterTagValues
      rw [hf]
      rfl
    | some m =>
      have h1 : applyTags f (p :: ts) = { f with tags := some ((p :: ts).foldl mergeTag m) } := by
        unfold applyTags
        rw [hf]
      rw [h1]
      show tagMapValues ((p :: ts).foldl mergeTag m) k = filterTagValues f k ++ valuesFor k (p :: ts)
      rw [tagMapValues_foldl]
      unfold filterTagValues
      rw [hf]

lemma filterTagValues_congr (f f' : Filter) (k : String) (h : f.tags = f'.tags) :
    filterTagValues f k = filterTagValues f' k := by
  unfold filterTagValues
  rw [h]

lemma processLines_fatal_none (opts : ReqOpts) (g : List (String × String))
    (hp : parseTagFlags opts.tag = .ok g) :
    ∀ lines, (processLines opts lines).fatal = none := by
  intro lines
  induction lines with
  | nil => rfl
  | cons l rest ih =>
    cases l with
    | invalid s =>
      simp only [processLines]
      exact ih
    | blank =>
      simp only [processLines, buildFilter_ok_eq {} opts g hp]
      exact ih
    | parsed base =>
      simp only [processLines, buildFilter_ok_eq base opts g hp]
      exact ih

lemma processLines_insert_invalid (opts : ReqOpts) (g : List (String × String)) (s : String)
    (hp : parseTagFlags opts.tag = .ok g) :
    ∀ pre post, processLines opts (pre ++ StdinLine.invalid s :: post) =
      ⟨(processLines opts (pre ++ post)).filters,
       (processLines opts (pre ++ post)).lineErrors + 1,
       (processLines opts (pre ++ post)).fatal⟩ := by
  intro pre
  induction pre with
  | nil =>
    intro post
    rfl
  | cons l pre ih =>
    intro post
    cases l with
    | invalid s2 =>
      simp only [List.cons_append, processLines, List.append_eq, ih post]
    | blank =>
      simp only [List.cons_append, processLines, buildFilter_ok_eq {} opts g hp,
        List.append_eq, ih post]
    | parsed base =>
      simp only [List.cons_append, processLines, buildFilter_ok_eq base opts g hp,
        List.append_eq, ih post]

lemma paginateUntils_lt (limit glimit : Option Nat) (s : Option Int) :
    ∀ (rounds : List (List Int)) (total : Nat) (u0 u : Int),
      u ∈ paginateUntils limit glimit s total (some u0) rounds → u < u0 := by
  intro rounds
  induction rounds with
  | nil =>
    intro total u0 u h
    simp [paginateUntils] at h
  | cons round rest ih =>
    intro total u0 u h
    cases round with
    | nil =>
      simp [paginateUntils] at h
    | cons t ts =>
      rw [paginateUntils] at h
      have hub : nextUntil (some u0) (roundMin t ts) ≤ u0 - 1 := min_le_right _ _
      split at h
      · simp at h
      · dsimp only at h
        split at h
        · simp at h
        · rcases List.mem_cons.mp h with h1 | h1
          · omega
          · have := ih _ _ _ h1
            omega

lemma paginateUntils_pairwise (limit glimit : Option Nat) (s : Option Int) :
    ∀ (rounds : List (List Int)) (total : Nat) (cur : Option Int),
      List.Pairwise (fun a b : Int => b < a)
        (paginateUntils limit glimit s total cur rounds) := by
  intro rounds
  induction rounds with
  | nil =>
    intro total cur
    simp [paginateUntils]
  | cons round rest ih =>
    intro total cur
    cases round with
    | nil =>
      simp [paginateUntils]
    | cons t ts =>
      rw [paginateUntils]
      split
      · exact List.Pairwise.nil
      · dsimp only
        split
        · exact List.Pairwise.nil
        · exact List.pairwise_cons.mpr
            ⟨fun b hb => paginateUntils_lt limit glimit s rest _ _ b hb, ih _ _⟩

/-! ## Claim theorems -/

/-- Claim C1 (amended): a malformed `--tag` override does not abort only
the current line — it aborts the entire invocation.  The first piped
line that gets past JSON parsing returns the `invalid --tag` error from
`Action`, so no line is ever processed to completion and later lines
are never read. -/
theorem req_invalid_tag_aborts_invocation (opts : ReqOpts) (msg : String)
    (lines : List StdinLine) (hp : parseTagFlags opts.tag = .error msg) :
    (processLines opts lines).filters = []
    ∧ ((processLines opts lines).fatal = some msg ↔ ∃ l ∈ lines, l.parseOk = true) := by
  induction lines with
  | nil =>
    refine ⟨rfl, ?_, ?_⟩
    · intro h
      cases h
    · rintro ⟨l, hl, _⟩
      cases hl
  | cons l rest ih =>
    cases l with
    | invalid s =>
      refine ⟨?_, ?_⟩
      · show (processLines opts rest).filters = []
        exact ih.1
      · show (processLines opts rest).fatal = some msg ↔ _
        rw [ih.2]
        simp [StdinLine.parseOk]
    | blank =>
      simp only [processLines, buildFilter_error_eq {} opts msg hp]
      refine ⟨by trivial, ?_⟩
      simp [StdinLine.parseOk]
    | parsed base =>
      simp only [processLines, buildFilter_error_eq base opts msg hp]
      refine ⟨by trivial, ?_⟩
      simp [StdinLine.parseOk]

/-- Claim C1 witness: with the malformed override `spam` and one blank
line, the whole run ends with the `invalid --tag spam` error and no
filter is built. -/
theorem req_invalid_tag_aborts_invocation_witness :
    (processLines { tag := ["spam"] } [StdinLine.blank]).filters = []
    ∧ (processLines { tag := ["spam"] } [StdinLine.blank]).fatal = some "invalid --tag spam" := by
  have h := req_invalid_tag_aborts_invocation { tag := ["spam"] } "invalid --tag spam"
    [StdinLine.blank] rfl
  exact ⟨h.1, h.2.mpr ⟨StdinLine.blank, List.mem_singleton.mpr rfl, rfl⟩⟩

/-- Claim C1 counterexample: with the malformed override `spam` and
three blank piped lines, the invocation terminates with the
`invalid --tag` error and zero of the three lines are processed to
completion, contradicting the claim that only the current line is
aborted and the other lines still complete. -/
theorem req_invalid_tag_counterexample :
    (processLines { tag := ["spam"] }
        [StdinLine.blank, StdinLine.blank, StdinLine.blank]).fatal = some "invalid --tag spam"
    ∧ (processLines { tag := ["spam"] }
        [StdinLine.blank, StdinLine.blank, StdinLine.blank]).filters = []
    ∧ ¬ (processLines { tag := ["spam"] }
        [StdinLine.blank, StdinLine.blank, StdinLine.blank]).filters.length = 3 :=
  ⟨rfl, rfl, by decide⟩

/-- Claim C2 (amended): on a base filter whose limit fields are unset
(the Go zero values, which every piped JSON filter without a limit key
has and which `LimitZero` always has since it is never unmarshalled),
`limit=0` on the command line sets `limitZero` and leaves the limit
unset, and no limit flag leaves both unset, whatever the other fields
of the base filter and options are; a positive limit `n` is stored
through Go's `uint64 → int` narrowing conversion with `limitZero`
still false — verbatim exactly when `n < 2 ^ 63` (every
int64-representable value), wrapped otherwise. -/
theorem req_limit_override (base : Filter) (opts : ReqOpts) (f : Filter)
    (hL : base.limit = 0) (hZ : base.limitZero = false)
    (hok : buildFilter base opts = .ok f) :
    (opts.limit = some 0 → f.limit = 0 ∧ f.limitZero = true)
    ∧ (∀ n : Nat, opts.limit = some n → n ≠ 0 →
        f.limit = intOfUint64 n ∧ f.limitZero = false
          ∧ (n < 2 ^ 63 → f.limit = (n : Int)))
    ∧ (opts.limit = none → f.limit = 0 ∧ f.limitZero = false) := by
  obtain ⟨g, hp, hf⟩ := buildFilter_ok_inv base opts f hok
  have h3L : (applyUntil (applySince (applyTags (applyListOverrides base opts)
      (tagPairs g opts)) opts) opts).limit = 0 := by
    rw [applyUntil_limit, applySince_limit, applyTags_limit, applyListOverrides_limit, hL]
  have h3Z : (applyUntil (applySince (applyTags (applyListOverrides base opts)
      (tagPairs g opts)) opts) opts).limitZero = false := by
    rw [applyUntil_limitZero, applySince_limitZero, applyTags_limitZero,
      applyListOverrides_limitZero, hZ]
  subst hf
  refine ⟨?_, ?_, ?_⟩
  · intro h0
    rw [applyLimit_zero _ _ h0]
    exact ⟨h3L, rfl⟩
  · intro n hn hne
    rw [applyLimit_pos _ _ n hn hne]
    exact ⟨rfl, h3Z, fun hlt => intOfUint64_of_lt n hlt⟩
  · intro h0
    rw [applyLimit_none _ _ h0]
    exact ⟨h3L, h3Z⟩

/-- Claim C2 witness: `limit=0` on the empty base yields an unset limit
with `limitZero = true`, and `limit=5` is stored verbatim. -/
theorem req_limit_override_witness :
    (Filter.limit { limitZero := true } = 0 ∧ Filter.limitZero { limitZero := true } = true)
    ∧ Filter.limit { limit := 5 } = ((5 : Nat) : Int) := by
  have h0 := req_limit_override {} { limit := some 0 } { limitZero := true } rfl rfl rfl
  have h5 := req_limit_override {} { limit := some 5 } { limit := 5 } rfl rfl rfl
  exact ⟨h0.1 rfl, (h5.2.1 5 rfl (by decide)).2.2 (by norm_num)⟩

/-- Claim C2 counterexample: the original claim's "a positive limit n
sets the filter's limit to n verbatim" fails at `n = 2 ^ 63`: Go's
`int(limit)` narrowing (src/req.go line 257) wraps the value to
`-(2 ^ 63)`, which is not `2 ^ 63`. -/
theorem req_limit_override_counterexample :
    buildFilter {} { limit := some (2 ^ 63) } = .ok { limit := -(2 ^ 63) }
    ∧ ((-(2 ^ 63) : Int) = ((2 ^ 63 : Nat) : Int) → False) := by
  refine ⟨rfl, ?_⟩
  intro h
  exact absurd h (by norm_num)

/-- Claim C3: for every base filter and valid tag overrides, the merged
tag mapping holds, under each key, the base values followed by the
override values in encounter order — all generic `--tag` pairs in flag
order, then the `e`, `p` and `d` shortcut values (`tagPairs`) — so
insertion order within one key is preserved. -/
theorem req_tag_merge_order (base : Filter) (opts : ReqOpts) (g : List (String × String))
    (hp : parseTagFlags opts.tag = .ok g) :
    ∃ f, buildFilter base opts = .ok f
      ∧ ∀ k, filterTagValues f k = filterTagValues base k ++ valuesFor k (tagPairs g opts) := by
  refine ⟨_, buildFilter_ok_eq base opts g hp, ?_⟩
  intro k
  have h1 : (applyLimit (applyUntil (applySince (applyTags (applyListOverrides base opts)
      (tagPairs g opts)) opts) opts) opts).tags =
      (applyTags (applyListOverrides base opts) (tagPairs g opts)).tags := by
    rw [applyLimit_tags, applyUntil_tags, applySince_tags]
  rw [filterTagValues_congr _ _ k h1, filterTagValues_applyTags,
    filterTagValues_congr _ _ k (applyListOverrides_tags base opts)]

/-- Claim C3 witness: `t=spam` then `t=spam2` yields
`tags["t"] == ["spam", "spam2"]`. -/
theorem req_tag_merge_order_witness :
    ∃ f, buildFilter {} { tag := ["t=spam", "t=spam2"] } = .ok f
      ∧ filterTagValues f "t" = ["spam", "spam2"] := by
  obtain ⟨f, hf, hv⟩ := req_tag_merge_order {} { tag := ["t=spam", "t=spam2"] }
    [("t", "spam"), ("t", "spam2")] rfl
  refine ⟨f, hf, ?_⟩
  rw [hv "t"]
  rfl

/-- Claim C4: when the tag flags are well formed, an unparseable piped
line only records a line-processing error and is skipped: the filters
built from the surrounding lines are exactly those of the run without
it, no fatal error arises, and the invocation still reports failure at
exit (via the modelled `exitIfLineProcessingError`). -/
theorem req_invalid_json_isolated (opts : ReqOpts) (g : List (String × String)) (s : String)
    (pre post : List StdinLine) (hp : parseTagFlags opts.tag = .ok g) :
    (processLines opts (pre ++ StdinLine.invalid s :: post)).filters =
        (processLines opts (pre ++ post)).filters
    ∧ (processLines opts (pre ++ StdinLine.invalid s :: post)).lineErrors =
        (processLines opts (pre ++ post)).lineErrors + 1
    ∧ (processLines opts (pre ++ StdinLine.invalid s :: post)).fatal = none
    ∧ reportsFailure (processLines opts (pre ++ StdinLine.invalid s :: post)) = true := by
  have he := processLines_insert_invalid opts g s hp pre post
  rw [he]
  refine ⟨rfl, rfl, processLines_fatal_none opts g hp (pre ++ post), ?_⟩
  simp [reportsFailure]

/-- Claim C4 witness: an invalid middle line leaves the filters of the
other two lines untouched and the run reports failure. -/
theorem req_invalid_json_isolated_witness :
    (processLines {} [StdinLine.blank, StdinLine.invalid "oops", StdinLine.blank]).filters =
        (processLines {} [StdinLine.blank, StdinLine.blank]).filters
    ∧ reportsFailure
        (processLines {} [StdinLine.blank, StdinLine.invalid "oops", StdinLine.blank]) = true := by
  have h := req_invalid_json_isolated {} [] "oops" [StdinLine.blank] [StdinLine.blank] rfl
  exact ⟨h.1, h.2.2.2⟩

/-- Claim C5: when relay addresses are requested and none connects,
`req.Action` exits with the dedicated code 3 before reading any piped
line: no filter is built, sent or printed. -/
theorem req_no_relays_connected_exits (opts : ReqOpts) (requested connected : List String)
    (lines : List StdinLine) (h1 : requested ≠ []) (h2 : connected = []) :
    runReq opts requested connected lines =
      { exitCode := some 3, connectionAttempted := true } := by
  subst h2
  unfold runReq
  have he : requested.isEmpty = false := by
    cases requested with
    | nil => exact absurd rfl h1
    | cons a l => rfl
  rw [he]
  simp

/-- Claim C5 witness: one requested relay, zero connected. -/
theorem req_no_relays_connected_exits_witness :
    runReq {} ["relay.example"] [] [StdinLine.blank] =
      { exitCode := some 3, connectionAttempted := true } :=
  req_no_relays_connected_exits {} ["relay.example"] [] [StdinLine.blank]
    (List.cons_ne_nil _ _) rfl

/-- Claim C6: with neither `--auth` nor `--force-pre-auth` set, the
auth handler refuses the challenge outright — it signs nothing,
whatever signing capability would have been gathered — and the
triggering request fails permanently with zero retries (retry
machinery modelled from the spec). -/
theorem req_auth_not_opted_in_refused (opts : ReqOpts) (gathered : SignerOutcome)
    (h1 : opts.auth = false) (h2 : opts.forcePreAuth = false) :
    authHandler opts gathered = AuthAction.refusedNoOptIn
    ∧ (∀ sec, authHandler opts gathered ≠ AuthAction.signedLocal sec)
    ∧ authHandler opts gathered ≠ AuthAction.signedBunker
    ∧ requestRetries (authHandler opts gathered) = 0
    ∧ requestFailsPermanently (authHandler opts gathered) = true := by
  have hh : authHandler opts gathered = AuthAction.refusedNoOptIn := by
    unfold authHandler
    rw [if_pos ⟨h1, h2⟩]
  rw [hh]
  refine ⟨rfl, ?_, ?_, rfl, rfl⟩
  · intro sec hcon
    cases hcon
  · intro hcon
    cases hcon

/-- Claim C6 witness: default options (no auth opt-in) with a local key
available still refuse and never retry. -/
theorem req_auth_not_opted_in_refused_witness :
    authHandler {} (SignerOutcome.localKey "01") = AuthAction.refusedNoOptIn
    ∧ requestRetries (authHandler {} (SignerOutcome.localKey "01")) = 0 := by
  have h := req_auth_not_opted_in_refused {} (SignerOutcome.localKey "01") rfl rfl
  exact ⟨h.1, h.2.2.2.1⟩

/-- Claim C7: a set `since` (resp. `until`) flag replaces any base
value outright, never merging with it; an unset flag leaves the base
value unchanged. -/
theorem req_since_until_replace (base : Filter) (opts : ReqOpts) (f : Filter)
    (hok : buildFilter base opts = .ok f) :
    (∀ t, opts.since = some t → f.since = some t)
    ∧ (opts.since = none → f.since = base.since)
    ∧ (∀ t, opts.until' = some t → f.until' = some t)
    ∧ (opts.until' = none → f.until' = base.until') := by
  obtain ⟨g, hp, hf⟩ := buildFilter_ok_inv base opts f hok
  subst hf
  refine ⟨?_, ?_, ?_, ?_⟩
  · intro t ht
    rw [applyLimit_since, applyUntil_since, applySince_since_set _ _ t ht]
  · intro ht
    rw [applyLimit_since, applyUntil_since, applySince_since_unset _ _ ht,
      applyTags_since, applyListOverrides_since]
  · intro t ht
    rw [applyLimit_until, applyUntil_until_set _ _ t ht]
  · intro ht
    rw [applyLimit_until, applyUntil_until_unset _ _ ht, applySince_until,
      applyTags_until, applyListOverrides_until]

/-- Claim C7 witness: a base `since` of 5 is replaced by the flag value
10, and a base `until` of 7 by the flag value 3. -/
theorem req_since_until_replace_witness :
    Filter.since { since := some 10 } = some 10
    ∧ Filter.until' { until' := some 3 } = some 3 := by
  have hs := req_since_until_replace { since := some 5 } { since := some 10 }
    { since := some 10 } rfl
  have hu := req_since_until_replace { until' := some 7 } { until' := some 3 }
    { until' := some 3 } rfl
  exact ⟨hs.1 10 rfl, hu.2.2.1 3 rfl⟩

/-- Claim C8: the pagination `until` values strictly decrease — they
are pairwise strictly descending and all lie strictly below a bounded
starting `until`, so no value ever repeats across rounds — and on
round timestamps 100, then 90 and 90, then 80 with `since = 70` the
successive `until` values are 99, 89, 79, after which pagination stops
as soon as the next `until` would fall below `since` (later rounds are
never issued). -/
theorem req_pagination_strict_progress :
    (∀ (limit glimit : Option Nat) (s : Option Int) (rounds : List (List Int))
        (total : Nat) (cur : Option Int),
      List.Pairwise (fun a b : Int => b < a) (paginateUntils limit glimit s total cur rounds))
    ∧ (∀ (limit glimit : Option Nat) (s : Option Int) (rounds : List (List Int))
        (total : Nat) (u0 u : Int),
      u ∈ paginateUntils limit glimit s total (some u0) rounds → u < u0)
    ∧ paginateUntils none none (some 70) 0 none [[100], [90, 90], [80]] = [99, 89, 79]
    ∧ paginateUntils none none (some 70) 0 none [[100], [90, 90], [80], [70], [60]]
        = [99, 89, 79] :=
  ⟨paginateUntils_pairwise, paginateUntils_lt, by decide, by decide⟩

/-- Claim C8 witness: starting from `until = 1000`, the first round
with minimum timestamp 100 produces the next `until` 99, strictly
below the start. -/
theorem req_pagination_strict_progress_witness :
    (99 : Int) ∈ paginateUntils none none none 0 (some 1000) [[100]] ∧ (99 : Int) < 1000 :=
  ⟨by decide, req_pagination_strict_progress.2.1 none none none [[100]] 0 1000 99 (by decide)⟩

/-- Claim C9: with no relay addresses, no connection is attempted and
nothing is sent; every built filter is printed as exactly one JSON
value, the bare filter object when the `bare` flag is set and the
`["REQ", "nak", filter]` envelope otherwise. -/
theorem req_print_mode (opts : ReqOpts) (connected : List String) (lines : List StdinLine) :
    (runReq opts [] connected lines).connectionAttempted = false
    ∧ (runReq opts [] connected lines).sentFilters = []
    ∧ (runReq opts [] connected lines).outputs =
        (processLines opts lines).filters.map (printOutput opts)
    ∧ ∀ j ∈ (runReq opts [] connected lines).outputs,
        ∃ f, (opts.bare = true → j = filterJson f)
          ∧ (opts.bare = false →
              j = Json.arr [Json.str "REQ", Json.str "nak", filterJson f]) := by
  refine ⟨rfl, rfl, rfl, ?_⟩
  intro j hj
  have hj2 : j ∈ (processLines opts lines).filters.map (printOutput opts) := hj
  obtain ⟨f, hf, hjf⟩ := List.mem_map.mp hj2
  refine ⟨f, ?_, ?_⟩
  · intro hb
    rw [← hjf]
    unfold printOutput
    rw [hb]
    simp
  · intro hb
    rw [← hjf]
    unfold printOutput
    rw [hb]
    simp

/-- Claim C9 witness: one blank line, default options, no relays: the
single output is the `["REQ", "nak", filter]` envelope. -/
theorem req_print_mode_witness :
    ∃ f, ((({} : ReqOpts)).bare = true →
        Json.arr [Json.str "REQ", Json.str "nak", filterJson {}] = filterJson f)
      ∧ ((({} : ReqOpts)).bare = false →
        Json.arr [Json.str "REQ", Json.str "nak", filterJson {}]
          = Json.arr [Json.str "REQ", Json.str "nak", filterJson f]) :=
  (req_print_mode {} [] [StdinLine.blank]).2.2.2
    (Json.arr [Json.str "REQ", Json.str "nak", filterJson {}]) (List.Mem.head _)

/-- Claim C10: when the `paginate` flag is set the Paginate strategy is
selected whatever the `stream` flag says; with neither flag the Eose
strategy is selected. -/
theorem req_paginate_precedence (opts : ReqOpts) :
    (opts.paginate = true → selectStrategy opts = Strategy.paginate)
    ∧ (opts.paginate = false → opts.stream = false → selectStrategy opts = Strategy.eose) := by
  constructor
  · intro h
    unfold selectStrategy
    rw [h]
    simp
  · intro h1 h2
    unfold selectStrategy
    rw [h1, h2]
    simp

/-- Claim C10 witness: both flags set selects Paginate; neither flag
selects Eose. -/
theorem req_paginate_precedence_witness :
    selectStrategy { paginate := true, stream := true } = Strategy.paginate
    ∧ selectStrategy {} = Strategy.eose :=
  ⟨(req_paginate_precedence { paginate := true, stream := true }).1 rfl,
   (req_paginate_precedence {}).2 rfl rfl⟩

end Nak
